import Mathlib

/-!
Verification of the schema-driven field rendering engine
(`src/schema.rs`, `src/renderer.rs`, `src/component_registry.rs`).

Modelling conventions:
* Rust `HashMap<String, V>` is modelled as an association list
  `List (String × V)`; `HashMap::get` is `List.lookup`.  Iteration order
  of a `HashMap` is arbitrary but fixed for an unmutated map; the list
  order plays that role.
* Rust `String`/`&str` is Lean `String`; `str::replace` is re-implemented
  below on `List Char` (`replaceFuel` / `rustReplace`) because every
  pattern used by the engine (`{value}`, `{field}`, `{fieldName}`) is
  non-empty; for non-empty patterns the definition matches Rust's
  left-to-right, non-overlapping, all-occurrences semantics.
* `SchemaRegistry::resolve_variant_for_field` recurses along the context
  `inherits` chain with no cycle guard, so it need not terminate; it is
  embedded with explicit fuel (`resolveVariantFuel`), where `none` means
  "the recursion did not finish within the given depth" and `some r`
  means the Rust function returns `r` (reached after at most that many
  nested calls).  `renderFieldFuel` threads the same fuel.
-/

namespace SchemaUI

/-- Model of `FieldVariant` (src/schema.rs): one renderable presentation of
a field. -/
structure FieldVariant where
  base : String
  override_class : Option String
  extend : Option String
  attrs : Option (List (String × String))
deriving Repr, DecidableEq

/-- Model of `Context` (src/schema.rs): optional parent context plus a
field → variant-name map. -/
structure Context where
  inherits : Option String
  fields : List (String × String)
deriving Repr, DecidableEq

/-- Model of `TableSchema` (src/schema.rs). `mock_data` records are the
flattened `fields` maps of `MockRecord`. -/
structure TableSchema where
  variants : List (String × List (String × FieldVariant))
  defaults : Option (List (String × String))
  contexts : List (String × Context)
  mock_data : Option (List (List (String × String)))
deriving Repr, DecidableEq

/-- Model of `Theme` (src/schema.rs): tag name → default CSS classes. -/
structure Theme where
  tags : List (String × String)
deriving Repr, DecidableEq

/-- Model of `ThemeConfig` (src/schema.rs): theme name → theme. -/
structure ThemeConfig where
  themes : List (String × Theme)
deriving Repr, DecidableEq

/-- Model of `SchemaRegistry` (src/schema.rs). -/
structure SchemaRegistry where
  themes : ThemeConfig
  tables : List (String × TableSchema)
  current_theme : String
deriving Repr, DecidableEq

/-- Model of `ComponentError` (src/component_registry.rs). -/
inductive ComponentError where
  | ComponentNotFound : String → ComponentError
  | RecordNotFound : String → ComponentError
  | UnresolvedPlaceholders : ComponentError
  | DatabaseError : String → ComponentError
deriving Repr, DecidableEq

/-- Model of `ComponentTemplate` (src/component_registry.rs). -/
structure ComponentTemplate where
  name : String
  table : String
  template : String
  required_fields : List String
deriving Repr, DecidableEq

/-- True when `p` is an initial segment of `s` (used to locate pattern
occurrences, as Rust's `str::find` does during `replace`). -/
def leadMatch : List Char → List Char → Bool
  | [], _ => true
  | _ :: _, [] => false
  | p :: ps, c :: cs => p == c && leadMatch ps cs

/-- Fuel-indexed core of Rust `str::replace` on character lists: scan left
to right, and at each position where the (non-empty) pattern matches, emit
the replacement and skip the matched characters; replacement text is not
re-scanned.  `fuel ≥ s.length` makes the fuel irrelevant. -/
def replaceFuel (pat rep : List Char) : Nat → List Char → List Char
  | 0, s => s
  | _ + 1, [] => []
  | n + 1, c :: cs =>
    if leadMatch pat (c :: cs) then
      rep ++ replaceFuel pat rep n (List.drop (pat.length - 1) cs)
    else
      c :: replaceFuel pat rep n cs

/-- Model of Rust `str::replace(pat, rep)` for the non-empty patterns the
engine uses (every pattern contains `{` and `}`); an empty pattern leaves
the string unchanged, a case no call site exercises. -/
def rustReplace (s pat rep : String) : String :=
  if pat.data.isEmpty then s
  else ⟨replaceFuel pat.data rep.data s.data.length s.data⟩

/-- Model of Rust `str::contains(char)`. -/
def containsChar (s : String) (c : Char) : Bool :=
  s.data.contains c

/-- Model of `SchemaRegistry::get_table`. -/
def get_table (reg : SchemaRegistry) (table : String) : Option TableSchema :=
  reg.tables.lookup table

/-- Model of `SchemaRegistry::get_theme_css`: look the tag up in the
current theme, with the empty string as default. -/
def get_theme_css (reg : SchemaRegistry) (tag : String) : String :=
  ((reg.themes.themes.lookup reg.current_theme).bind
    (fun theme => theme.tags.lookup tag)).getD ""

/-- Model of `SchemaRegistry::build_css_classes`: compose the final class
list from the theme CSS and the variant's override/extend settings,
following the Rust `match` arm for arm. -/
def build_css_classes (theme_css : String) (variant : FieldVariant) : String :=
  match variant.override_class, variant.extend with
  | some override_css, none => override_css
  | none, some extend_css =>
      if theme_css = "" then extend_css else theme_css ++ " " ++ extend_css
  | some override_css, some extend_css => override_css ++ " " ++ extend_css
  | none, none => theme_css

/-- Model of `SchemaRegistry::build_attributes`: map each attribute
template through `replace("{value}", value).replace("{field}", field)`. -/
def build_attributes (variant : FieldVariant) (value field : String) :
    List (String × String) :=
  (variant.attrs.getD []).map
    (fun kv => (kv.1, rustReplace (rustReplace kv.2 "{value}" value) "{field}" field))

/-- One step of the attribute loop in `SchemaRegistry::generate_html`:
append ` key="value"` unless the key is `"class"` (which the loop skips to
avoid duplicating the class attribute). -/
def attrStep (html : String) (kv : String × String) : String :=
  if kv.1 = "class" then html
  else html ++ " " ++ kv.1 ++ "=\"" ++ kv.2 ++ "\""

/-- Model of `SchemaRegistry::generate_html`: open tag, `class` attribute
when the class list is non-empty, the remaining attributes skipping any
entry keyed `"class"`, then either ` />` for the self-closing tag set or
`>value</tag>`. -/
def generate_html (tag css_classes : String) (attrs : List (String × String))
    (value : String) : String :=
  let html0 := "<" ++ tag
  let html1 :=
    if css_classes = "" then html0
    else html0 ++ " class=\"" ++ css_classes ++ "\""
  let html2 := attrs.foldl attrStep html1
  if tag = "img" ∨ tag = "input" ∨ tag = "br" ∨ tag = "hr" then
    html2 ++ " />"
  else
    html2 ++ ">" ++ value ++ "</" ++ tag ++ ">"

/-- The fall-through of `resolve_variant_for_field`: the field's entry in
`schema.defaults`, or else the first variant name listed for the field in
`schema.variants` (`keys().next()`). -/
def resolveFallback (schema : TableSchema) (field : String) : Option String :=
  match schema.defaults.bind (fun defaults => defaults.lookup field) with
  | some d => some d
  | none =>
      (schema.variants.lookup field).bind
        (fun field_variants => field_variants.head?.map (fun kv => kv.1))

/-- Fuel-indexed model of `SchemaRegistry::resolve_variant_for_field`.
`none` means the inheritance recursion did not finish within `fuel` nested
calls (the Rust function, which has no cycle guard, is still recursing);
`some r` is the Rust return value. -/
def resolveVariantFuel : Nat → TableSchema → String → String → Option (Option String)
  | 0, _, _, _ => none
  | fuel + 1, schema, field, context =>
    match schema.contexts.lookup context with
    | some ctx =>
      match ctx.fields.lookup field with
      | some variant => some (some variant)
      | none =>
        match ctx.inherits with
        | some parent_context => resolveVariantFuel fuel schema field parent_context
        | none => some (resolveFallback schema field)
    | none => some (resolveFallback schema field)

/-- Walk of the inheritance chain used to state fall-through claims: `true`
iff within `fuel` steps the walk from `context` ends (missing context, or a
root reached) with no context along the way mapping `field`. -/
def chainUnmapped : Nat → TableSchema → String → String → Bool
  | 0, _, _, _ => false
  | fuel + 1, schema, field, context =>
    match schema.contexts.lookup context with
    | some ctx =>
      match ctx.fields.lookup field with
      | some _ => false
      | none =>
        match ctx.inherits with
        | some parent_context => chainUnmapped fuel schema field parent_context
        | none => true
    | none => true

/-- Fuel-indexed model of `SchemaRegistry::render_field` (the fuel only
feeds the variant resolution; every other step is a finite lookup).
`some none` is Rust's `None` (absent), `some (some html)` is `Some(html)`,
and the outer `none` again means resolution is still recursing. -/
def renderFieldFuel (fuel : Nat) (reg : SchemaRegistry)
    (table field context value : String) : Option (Option String) :=
  match get_table reg table with
  | none => some none
  | some schema =>
    match resolveVariantFuel fuel schema field context with
    | none => none
    | some none => some none
    | some (some variant_name) =>
      match schema.variants.lookup field with
      | none => some none
      | some field_variants =>
        match field_variants.lookup variant_name with
        | none => some none
        | some variant =>
          some (some (generate_html variant.base
            (build_css_classes (get_theme_css reg variant.base) variant)
            (build_attributes variant value field) value))

/-- The substitution pass shared by both component renderers: replace every
occurrence of `{field}` by its rendered HTML, one field at a time. -/
def substituteFields (template : String) (rendered_fields : List (String × String)) :
    String :=
  rendered_fields.foldl
    (fun result kv => rustReplace result ("\x7b" ++ kv.1 ++ "\x7d") kv.2) template

/-- Model of `ComponentRegistry::substitute_template`: apply the
substitutions, then fail with `UnresolvedPlaceholders` when both `{` and
`}` are still present. -/
def substitute_template (template : String)
    (rendered_fields : List (String × String)) : Except ComponentError String :=
  let result := substituteFields template rendered_fields
  if containsChar result '{' && containsChar result '}' then
    Except.error ComponentError.UnresolvedPlaceholders
  else
    Except.ok result

/-- Step 4 of `ComponentRegistry::render_component`: render each required
field that is present in the record, keeping the fields whose render
succeeds (`filter_map`).  Propagates the fuel of `renderFieldFuel`. -/
def componentRenderFields (fuel : Nat) (reg : SchemaRegistry)
    (table context : String) : List String → List (String × String) →
    Option (List (String × String))
  | [], _ => some []
  | f :: rest, record =>
    match record.lookup f with
    | none => componentRenderFields fuel reg table context rest record
    | some v =>
      match renderFieldFuel fuel reg table f context v with
      | none => none
      | some none => componentRenderFields fuel reg table context rest record
      | some (some html) =>
        (componentRenderFields fuel reg table context rest record).map
          (fun tail => (f, html) :: tail)

/-- Steps 4–5 of `ComponentRegistry::render_component` for a component
template and an already-fetched record: render the required fields, then
substitute them into the template with the unresolved-placeholder check. -/
def componentRenderComponent (fuel : Nat) (reg : SchemaRegistry)
    (component : ComponentTemplate) (record : List (String × String))
    (context : String) : Option (Except ComponentError String) :=
  (componentRenderFields fuel reg component.table context
      component.required_fields record).map
    (fun rendered_fields => substitute_template component.template rendered_fields)

/-- Model of `Renderer::render_component` (src/renderer.rs): for each
record entry whose field renders, replace its `{field}` placeholder; no
unresolved-placeholder check is performed on the result. -/
def rendererRenderComponent (fuel : Nat) (reg : SchemaRegistry)
    (template table context : String) (data : List (String × String)) :
    Option String :=
  match data with
  | [] => some template
  | (field, value) :: rest =>
    match renderFieldFuel fuel reg table field context value with
    | none => none
    | some none => rendererRenderComponent fuel reg template table context rest
    | some (some html) =>
        rendererRenderComponent fuel reg
          (rustReplace template ("\x7b" ++ field ++ "\x7d") html) table context rest

/-- Modelled from the spec's tag-emission rule (§4.2), stated for
comparison with `generate_html`: the opening consists of the tag, then the
class attribute (only when the composed class list is non-empty), then the
remaining attributes; tags in the fixed self-closing set end with ` />`
and no content, every other tag wraps the value and emits a closing tag. -/
def specTagEmission (tag css_classes : String) (attrs : List (String × String))
    (value : String) : String :=
  let classPart := if css_classes = "" then "" else " class=\"" ++ css_classes ++ "\""
  let attrsPart := attrs.foldl attrStep ""
  let opening := "<" ++ tag ++ classPart ++ attrsPart
  if tag = "img" ∨ tag = "input" ∨ tag = "br" ∨ tag = "hr" then
    opening ++ " />"
  else
    opening ++ ">" ++ value ++ "</" ++ tag ++ ">"

/-! Concrete fixtures used by the witness theorems. -/

/-- A schema whose `list` context overrides a mapping its ancestor `card`
also defines, exercising the override-wins rule. -/
def sch3 : TableSchema :=
  ⟨[("name", [("h2v", ⟨"h2", none, none, none⟩), ("spanv", ⟨"span", none, none, none⟩)])],
   none,
   [("card", ⟨none, [("name", "h2v")]⟩), ("list", ⟨some "card", [("name", "spanv")]⟩)],
   none⟩

/-- A schema with no defaults and no context mapping for `name`, so
resolution must fall through to the first declared variant. -/
def sch4 : TableSchema :=
  ⟨[("name", [("h2v", ⟨"h2", none, none, none⟩)])], none, [], none⟩

/-- A schema with two variants for `title` and an empty `list` context,
for the first-declared-variant fallback. -/
def sch8 : TableSchema :=
  ⟨[("title", [("bold", ⟨"b", none, none, none⟩), ("ital", ⟨"i", none, none, none⟩)])],
   none, [("list", ⟨none, []⟩)], none⟩

/-- A malformed schema whose contexts `a` and `b` inherit from each other:
the inheritance chain cycles. -/
def cycSchema : TableSchema :=
  ⟨[], none, [("a", ⟨some "b", []⟩), ("b", ⟨some "a", []⟩)], none⟩

/-- A registry with no tables at all. -/
def reg9 : SchemaRegistry := ⟨⟨[]⟩, [], "light"⟩

/-- A one-table registry (theme `light` styles `h2` as `text-xl`). -/
def regC1 : SchemaRegistry :=
  ⟨⟨[("light", ⟨[("h2", "text-xl")]⟩)]⟩,
   [("users", ⟨[("name", [("h2v", ⟨"h2", none, none, none⟩)])], none,
     [("card", ⟨none, [("name", "h2v")]⟩)], none⟩)], "light"⟩

/-- A component over `users` whose template references only `name`. -/
def compC1 : ComponentTemplate := ⟨"user_card", "users", "<div>{name}</div>", ["name"]⟩

/-! Helper lemmas about the embedded operations. -/

theorem replaceFuel_nil (pat rep : List Char) (n : Nat) :
    replaceFuel pat rep n [] = [] := by
  cases n <;> rfl

theorem leadMatch_self (p : List Char) : leadMatch p p = true := by
  induction p with
  | nil => rfl
  | cons c cs ih => simp [leadMatch, ih]

/-- Replacing a whole string that is exactly the pattern yields the
replacement, even when the replacement itself contains the pattern: a
single `replace` pass never re-scans the text it has just inserted. -/
theorem rustReplace_self (pat rep : String) (h : pat.data ≠ []) :
    rustReplace pat pat rep = rep := by
  have hB : pat.data.isEmpty = false := by
    cases hd : pat.data with
    | nil => exact absurd hd h
    | cons c cs => rfl
  unfold rustReplace
  rw [hB]
  simp only [Bool.false_eq_true, if_false]
  cases hp : pat.data with
  | nil => exact absurd hp h
  | cons c cs =>
    have hm : leadMatch (c :: cs) (c :: cs) = true := leadMatch_self _
    simp only [List.length_cons, replaceFuel, hm, if_true, Nat.add_sub_cancel,
      List.drop_length, replaceFuel_nil, List.append_nil]

theorem attrStep_foldl_init (attrs : List (String × String)) (init : String) :
    attrs.foldl attrStep init = init ++ attrs.foldl attrStep "" := by
  induction attrs generalizing init with
  | nil => simp [String.append_empty]
  | cons kv rest ih =>
    rw [List.foldl_cons, List.foldl_cons, ih (attrStep init kv), ih (attrStep "" kv)]
    by_cases h : kv.1 = "class"
    · simp [attrStep, h, String.empty_append]
    · simp [attrStep, h, String.append_assoc, String.empty_append]

theorem attrStep_foldl_filter (attrs : List (String × String)) (init : String) :
    (attrs.filter fun kv => !(kv.1 == "class")).foldl attrStep init =
      attrs.foldl attrStep init := by
  induction attrs generalizing init with
  | nil => rfl
  | cons kv rest ih =>
    by_cases h : kv.1 = "class"
    · simp [List.filter_cons, h, attrStep, ih]
    · simp [List.filter_cons, h, attrStep, ih]

/-- When the bounded walk of the inheritance chain ends with no context
mapping the field, `resolve_variant_for_field` returns its fall-through
value (defaults, then first variant). -/
theorem chainUnmapped_resolve (fuel : Nat) :
    ∀ (schema : TableSchema) (field context : String),
    chainUnmapped fuel schema field context = true →
    resolveVariantFuel fuel schema field context =
      some (resolveFallback schema field) := by
  induction fuel with
  | zero =>
    intro schema field context h
    exact absurd h (by simp [chainUnmapped])
  | succ n ih =>
    intro schema field context h
    rw [chainUnmapped] at h
    rw [resolveVariantFuel]
    cases hc : schema.contexts.lookup context with
    | none => simp only [hc]
    | some ctx =>
      simp only [hc] at h ⊢
      cases hf : ctx.fields.lookup field with
      | some v => simp only [hf] at h; exact absurd h (by decide)
      | none =>
        simp only [hf] at h ⊢
        cases hi : ctx.inherits with
        | some parent => simp only [hi] at h ⊢; exact ih schema field parent h
        | none => simp only [hi]

/-- Once the resolution recursion finishes within some fuel, any larger
fuel produces the same answer. -/
theorem resolveVariantFuel_mono (n : Nat) :
    ∀ (m : Nat) (schema : TableSchema) (field context : String) (r : Option String),
    n ≤ m → resolveVariantFuel n schema field context = some r →
    resolveVariantFuel m schema field context = some r := by
  induction n with
  | zero =>
    intro m schema field context r _ h
    exact absurd h (by simp [resolveVariantFuel])
  | succ n ih =>
    intro m schema field context r hnm h
    obtain ⟨m', rfl⟩ : ∃ m', m = m' + 1 := ⟨m - 1, by omega⟩
    rw [resolveVariantFuel] at h ⊢
    cases hc : schema.contexts.lookup context with
    | none => simp only [hc] at h ⊢; exact h
    | some ctx =>
      simp only [hc] at h ⊢
      cases hf : ctx.fields.lookup field with
      | some v => simp only [hf] at h ⊢; exact h
      | none =>
        simp only [hf] at h ⊢
        cases hi : ctx.inherits with
        | some parent =>
          simp only [hi] at h ⊢
          exact ih m' schema field parent r (by omega) h
        | none => simp only [hi] at h ⊢; exact h

/-! Claim theorems. -/

/-- Claim C3: whenever the queried context exists in the schema and its
field→variant map contains the field, `resolve_variant_for_field` returns
that context's variant name immediately, regardless of what any ancestor
context declares (first match along the walk from the queried context
wins). -/
theorem c3_queried_context_wins (schema : TableSchema) (field context : String)
    (ctx : Context) (v : String) (fuel : Nat)
    (hc : schema.contexts.lookup context = some ctx)
    (hf : ctx.fields.lookup field = some v) :
    resolveVariantFuel (fuel + 1) schema field context = some (some v) := by
  rw [resolveVariantFuel]
  simp only [hc, hf]

/-- Witness for C3 on `sch3`: the queried `list` context maps `name` to
`spanv` even though its ancestor `card` maps it to `h2v`. -/
theorem c3_witness : resolveVariantFuel 1 sch3 "name" "list" = some (some "spanv") :=
  c3_queried_context_wins sch3 "name" "list"
    ⟨some "card", [("name", "spanv")]⟩ "spanv" 0 rfl rfl

/-- Claim C4: when the walk from the queried context to the root finds no
mapping for the field (including when the context does not exist),
resolution returns the field's entry in `schema.defaults` if present,
otherwise the first variant declared for the field in `schema.variants`,
and fails (returns `none`, the embedded `FieldNotFound`) when the field
has no default and no variants at all. -/
theorem c4_fallthrough_defaults_then_first_variant (fuel : Nat)
    (schema : TableSchema) (field context : String)
    (h : chainUnmapped fuel schema field context = true) :
    resolveVariantFuel fuel schema field context = some (resolveFallback schema field) ∧
    (∀ d, schema.defaults.bind (fun defaults => defaults.lookup field) = some d →
      resolveVariantFuel fuel schema field context = some (some d)) ∧
    (schema.defaults.bind (fun defaults => defaults.lookup field) = none →
      resolveVariantFuel fuel schema field context =
        some ((schema.variants.lookup field).bind
          (fun field_variants => field_variants.head?.map (fun kv => kv.1)))) ∧
    (schema.defaults.bind (fun defaults => defaults.lookup field) = none →
      schema.variants.lookup field = none ∨ schema.variants.lookup field = some [] →
      resolveVariantFuel fuel schema field context = some none) := by
  have hr := chainUnmapped_resolve fuel schema field context h
  refine ⟨hr, ?_, ?_, ?_⟩
  · intro d hd
    rw [hr]
    unfold resolveFallback
    rw [hd]
  · intro hd
    rw [hr]
    unfold resolveFallback
    rw [hd]
  · intro hd hv
    rw [hr]
    unfold resolveFallback
    rw [hd]
    rcases hv with hv | hv <;> rw [hv] <;> rfl

/-- Witness for C4 on `sch4`: context `card` does not exist, there are no
defaults, and the first declared variant `h2v` is returned. -/
theorem c4_witness :
    chainUnmapped 1 sch4 "name" "card" = true ∧
    resolveVariantFuel 1 sch4 "name" "card" = some (some "h2v") :=
  ⟨rfl, by
    have h := (c4_fallthrough_defaults_then_first_variant 1 sch4 "name" "card" rfl).2.2.1 rfl
    exact h.trans rfl⟩

/-- Claim C5: the composed class list follows the CSS composition table:
override alone is returned verbatim, extend alone is returned verbatim on
an empty theme CSS and appended after `themeCss + " "` otherwise, override
and extend together give `override + " " + extend`, and neither gives the
theme CSS verbatim (possibly empty). -/
theorem c5_css_composition_table (theme_css tag o e : String)
    (attrs : Option (List (String × String))) :
    build_css_classes theme_css ⟨tag, some o, none, attrs⟩ = o ∧
    build_css_classes theme_css ⟨tag, none, some e, attrs⟩ =
      (if theme_css = "" then e else theme_css ++ " " ++ e) ∧
    build_css_classes theme_css ⟨tag, some o, some e, attrs⟩ = o ++ " " ++ e ∧
    build_css_classes theme_css ⟨tag, none, none, attrs⟩ = theme_css :=
  ⟨rfl, rfl, rfl, rfl⟩

/-- Counterexample to claim C6 as stated: attribute rendering is claimed
to leave a raw value containing the token `{field}` unmodified, but the
`{field}` pass runs over the output of the `{value}` pass, so the raw
value `{field}` substituted into the template `{value}` is then rewritten
to the field name `name` instead of surviving verbatim. -/
theorem c6_raw_value_rescanned_cex :
    build_attributes ⟨"a", none, none, some [("href", "{value}")]⟩ "{field}" "name" =
      [("href", "name")] ∧ ("name" : String) ≠ "{field}" :=
  ⟨rfl, by decide⟩

/-- Claim C6 as amended: attribute rendering replaces `{value}` with the
raw value and then `{field}` with the field name, one single left-to-right
pass each (within a pass, replacement text is never re-scanned), but the
`{field}` pass operates on the output of the `{value}` pass, so `{field}`
tokens contributed by the raw value are replaced by the field name. -/
theorem c6_value_then_field_replacement (key tag value field : String)
    (ov ex : Option String) :
    build_attributes ⟨tag, ov, ex, some [(key, "{value}")]⟩ value field =
      [(key, rustReplace value "{field}" field)] ∧
    (∀ t : String, build_attributes ⟨tag, ov, ex, some [(key, t)]⟩ value field =
      [(key, rustReplace (rustReplace t "{value}" value) "{field}" field)]) := by
  constructor
  · simp only [build_attributes, Option.getD, List.map]
    rw [rustReplace_self "{value}" value (by decide)]
  · intro t
    rfl

/-- Claim C7: emitted HTML is `<tag attrs />` with no content and no
closing tag for the self-closing set `img`, `input`, `br`, `hr`, and
`<tag attrs>value</tag>` otherwise, with the class attribute (when the
composed class list is non-empty) placed before all other attributes:
`generate_html` agrees with the spec-side emission `specTagEmission`. -/
theorem c7_tag_emission (tag css_classes value : String)
    (attrs : List (String × String)) :
    generate_html tag css_classes attrs value =
      specTagEmission tag css_classes attrs value := by
  simp only [generate_html, specTagEmission]
  rw [attrStep_foldl_init]
  by_cases hcss : css_classes = "" <;>
    simp [hcss, String.append_assoc, String.append_empty, String.empty_append]

/-- Claim C10: an attribute entry keyed `"class"` is never emitted:
`generate_html` produces the same HTML whether or not such entries are
present, for every tag, class list, attribute map, and value. -/
theorem c10_class_attr_entry_dropped (tag css_classes value : String)
    (attrs : List (String × String)) :
    generate_html tag css_classes attrs value =
      generate_html tag css_classes
        (attrs.filter fun kv => !(kv.1 == "class")) value := by
  simp only [generate_html, attrStep_foldl_filter]

/-- On the cyclic schema, the resolution recursion visits `a` and `b`
forever: it finishes within no recursion depth, at either entry point. -/
theorem cycSchema_resolve_never_ends (n : Nat) :
    resolveVariantFuel n cycSchema "f" "a" = none ∧
    resolveVariantFuel n cycSchema "f" "b" = none := by
  induction n with
  | zero => exact ⟨rfl, rfl⟩
  | succ n ih =>
    exact ⟨(show resolveVariantFuel (n + 1) cycSchema "f" "a" =
        resolveVariantFuel n cycSchema "f" "b" from rfl).trans ih.2,
      (show resolveVariantFuel (n + 1) cycSchema "f" "b" =
        resolveVariantFuel n cycSchema "f" "a" from rfl).trans ih.1⟩

/-- Claim C2 fails on the code: on `cycSchema`, whose contexts `a` and `b`
inherit from each other, `resolve_variant_for_field` (which walks
`inherits` with no visited set and no depth bound) never returns — for
every recursion depth the embedded run is still recursing (`none`), so on
a cyclic configuration resolution neither terminates nor fails closed. -/
theorem c2_cycle_resolution_diverges (n : Nat) :
    resolveVariantFuel n cycSchema "f" "a" = none :=
  (cycSchema_resolve_never_ends n).1

/-- Claim C8: for a field with no context mapping along the (terminating)
walk and no default but at least one declared variant, resolution returns
the first declared variant, and deterministically so: every sufficient
recursion budget yields the same variant name for the same query. -/
theorem c8_first_variant_deterministic (fuel : Nat) (schema : TableSchema)
    (field context : String) (kv : String × FieldVariant)
    (rest : List (String × FieldVariant))
    (hchain : chainUnmapped fuel schema field context = true)
    (hd : schema.defaults.bind (fun defaults => defaults.lookup field) = none)
    (hv : schema.variants.lookup field = some (kv :: rest)) :
    resolveVariantFuel fuel schema field context = some (some kv.1) ∧
    ∀ fuel2, fuel ≤ fuel2 →
      resolveVariantFuel fuel2 schema field context = some (some kv.1) := by
  have hr := chainUnmapped_resolve fuel schema field context hchain
  have hval : resolveFallback schema field = some kv.1 := by
    unfold resolveFallback
    rw [hd, hv]
    rfl
  rw [hval] at hr
  exact ⟨hr, fun fuel2 h2 =>
    resolveVariantFuel_mono fuel fuel2 schema field context _ h2 hr⟩

/-- Witness for C8 on `sch8`: `title` has variants `bold` then `ital`, no
default and no mapping in context `list`; resolution yields `bold` at the
minimal budget and at a larger one. -/
theorem c8_witness :
    resolveVariantFuel 1 sch8 "title" "list" = some (some "bold") ∧
    resolveVariantFuel 9 sch8 "title" "list" = some (some "bold") := by
  have h := c8_first_variant_deterministic 1 sch8 "title" "list"
    ("bold", ⟨"b", none, none, none⟩) [("ital", ⟨"i", none, none, none⟩)]
    rfl rfl rfl
  exact ⟨h.1, h.2 9 (by omega)⟩

/-- Claim C9: `render_field` is total with absence as its failure mode
(the embedding returns `Option`, so no exception or panic is even
expressible): an unknown table yields `None` outright, and whenever
resolution terminates, an unknown field (no variants entry) or a resolved
variant name missing from the field's variants also yield `None`. -/
theorem c9_unknown_names_absent (fuel : Nat) (reg : SchemaRegistry)
    (table field context value : String) :
    (get_table reg table = none →
      renderFieldFuel fuel reg table field context value = some none) ∧
    (∀ schema r, get_table reg table = some schema →
      schema.variants.lookup field = none →
      renderFieldFuel fuel reg table field context value = some r → r = none) ∧
    (∀ schema variant_name field_variants, get_table reg table = some schema →
      resolveVariantFuel fuel schema field context = some (some variant_name) →
      schema.variants.lookup field = some field_variants →
      field_variants.lookup variant_name = none →
      renderFieldFuel fuel reg table field context value = some none) := by
  refine ⟨?_, ?_, ?_⟩
  · intro h
    rw [renderFieldFuel, h]
  · intro schema r hs hv hr
    simp only [renderFieldFuel, hs] at hr
    cases hres : resolveVariantFuel fuel schema field context with
    | none =>
      simp only [hres] at hr
      exact absurd hr (by simp)
    | some o =>
      cases o with
      | none =>
        simp only [hres] at hr
        exact (Option.some.inj hr).symm
      | some vn =>
        simp only [hres, hv] at hr
        exact (Option.some.inj hr).symm
  · intro schema vn fvs hs hres hv hfv
    simp only [renderFieldFuel, hs, hres, hv, hfv]

/-- Witness for C9 on the empty registry: the unknown table `users`
renders as `None` (absent), not an error. -/
theorem c9_witness : renderFieldFuel 1 reg9 "users" "name" "card" "x" = some none :=
  (c9_unknown_names_absent 1 reg9 "users" "name" "card" "x").1 rfl

/-- Claim C1: component rendering substitutes every rendered field's
`{fieldName}` placeholder into the template, and then returns the hard
error `UnresolvedPlaceholders` — never the partially substituted string —
exactly when the fully substituted result still contains both `{` and `}`;
otherwise it returns the fully substituted string. -/
theorem c1_unresolved_placeholders_hard_error (fuel : Nat) (reg : SchemaRegistry)
    (component : ComponentTemplate) (record : List (String × String))
    (context : String) (rendered : List (String × String))
    (hfields : componentRenderFields fuel reg component.table context
      component.required_fields record = some rendered) :
    (containsChar (substituteFields component.template rendered) '{' = true ∧
     containsChar (substituteFields component.template rendered) '}' = true →
      componentRenderComponent fuel reg component record context =
        some (Except.error ComponentError.UnresolvedPlaceholders)) ∧
    (¬(containsChar (substituteFields component.template rendered) '{' = true ∧
       containsChar (substituteFields component.template rendered) '}' = true) →
      componentRenderComponent fuel reg component record context =
        some (Except.ok (substituteFields component.template rendered))) := by
  have hcc : componentRenderComponent fuel reg component record context =
      some (substitute_template component.template rendered) := by
    rw [componentRenderComponent, hfields]
    rfl
  constructor
  · rintro ⟨h1, h2⟩
    rw [hcc]
    simp only [substitute_template, h1, h2, Bool.and_self, if_true]
  · intro h
    rw [hcc]
    have hfalse : (containsChar (substituteFields component.template rendered) '{' &&
        containsChar (substituteFields component.template rendered) '}') = false := by
      cases hA : containsChar (substituteFields component.template rendered) '{' <;>
        cases hB : containsChar (substituteFields component.template rendered) '}' <;>
        simp_all
    simp only [substitute_template, hfalse, Bool.false_eq_true, if_false]

/-- Witness for C1 on `regC1`/`compC1`: the record supplies `name`, the
only placeholder, so substitution leaves no braces and the fully
substituted string is returned. -/
theorem c1_witness :
    componentRenderComponent 1 regC1 compC1 [("name", "Bob")] "card" =
      some (Except.ok "<div><h2 class=\"text-xl\">Bob</h2></div>") := by
  have h := (c1_unresolved_placeholders_hard_error 1 regC1 compC1 [("name", "Bob")]
      "card" [("name", "<h2 class=\"text-xl\">Bob</h2>")] rfl).2 (by decide)
  exact h.trans (by rfl)

end SchemaUI
